import Mathlib

/-!
Verification of the jimaku-dl title-resolution and file-selection pipeline
(spec.md sections 3, 4, 7, 8).

The repository's `src/` tree contains the CLI entry point and the test suite;
the core module `jimaku_dl/downloader.py` itself is not present under `src/`.
Every operation below that belongs to that module is therefore modelled from
the natural-language specification (its doc comment says so), and theorems are
settled against these models.

Conventions: Python strings become `String`/`List Char`; Python tuples become
products; Python exceptions become `Except`/`Option`; external collaborators
(the fuzzy selector, the HTTP layer, `ffsubsync`) become explicit function or
data parameters so the decision logic is closed and executable.
-/

set_option maxRecDepth 4000

namespace JimakuDl

/-! ### Character helpers (ASCII, as Python's `str` methods on these inputs) -/

/-- ASCII digit test, as Python's `str.isdigit` on ASCII input. -/
def isDigitC (c : Char) : Bool := 48 ≤ c.toNat && c.toNat ≤ 57

/-- ASCII letter test. -/
def isAlphaC (c : Char) : Bool :=
  (65 ≤ c.toNat && c.toNat ≤ 90) || (97 ≤ c.toNat && c.toNat ≤ 122)

/-- Alphanumeric test, used for word boundaries around episode tokens. -/
def isAlnumC (c : Char) : Bool := isDigitC c || isAlphaC c

/-- ASCII lower-casing, as Python's `str.lower` on ASCII input. -/
def toLowerC (c : Char) : Char :=
  if 65 ≤ c.toNat && c.toNat ≤ 90 then Char.ofNat (c.toNat + 32) else c

/-- Numeric value of a digit character. -/
def digitVal (c : Char) : Nat := c.toNat - 48

/-- Reads the leading run of digits of the list, extending the accumulator;
stops at the first non-digit.  `readNum 0 ds` is the numeric value of a digit
string `ds` (leading zeros allowed). -/
def readNum (acc : Nat) : List Char → Nat
  | [] => acc
  | c :: r => if isDigitC c then readNum (acc * 10 + digitVal c) r else acc

/-- Does `pat` occur at the head of `txt`? -/
def startsWithL : List Char → List Char → Bool
  | [], _ => true
  | _ :: _, [] => false
  | a :: as2, b :: bs => (a == b) && startsWithL as2 bs

/-- Does `pat` occur as a contiguous run anywhere in `txt`? -/
def containsSub (pat : List Char) : List Char → Bool
  | [] => pat.isEmpty
  | c :: rest => startsWithL pat (c :: rest) || containsSub pat rest

/-! ### Data model (spec section 3) -/

/-- Modelled from the spec: `SubtitleFile` from the data model of section 3,
`{ id: integer, name: string, url: string }`, a downloadable artifact of a
subtitle entry.  The defining module `jimaku_dl/downloader.py` is not under
`src/`. -/
structure SubtitleFile where
  id : Nat
  name : String
  url : String
deriving DecidableEq

/-- Modelled from the spec: `SubtitleEntry` from the data model of section 3,
one per matched show on the subtitle index. -/
structure SubtitleEntry where
  id : Nat
  english_name : String
  japanese_name : String
deriving DecidableEq

/-- Modelled from the spec: `CanonicalMedia` from the data model of section 3,
produced by the Metadata Resolver from the metadata API's match. -/
structure CanonicalMedia where
  id : Nat
  romaji : String
  english : String
  native : String
  format : String
  episodes : Nat
deriving DecidableEq

/-! ### Episode File Filter/Ranker (spec section 4.4) -/

/-- Word boundary for an episode token: the preceding character (if any) must
not be alphanumeric, so that the `E` of `Episode` or a letter run never starts
a token mid-word. -/
def boundaryO : Option Char → Bool
  | none => true
  | some c => !(isAlnumC c)

/-- Does `r` start with a digit run whose value is `e`?  An optional `vN`
version suffix after the digits is ignored because `readNum` stops at the
first non-digit. -/
def digitsEq (r : List Char) (e : Nat) : Bool :=
  match r with
  | c :: rest => isDigitC c && (readNum (digitVal c) rest == e)
  | [] => false

/-- As `digitsEq`, allowing one leading space (`Ep 04` as well as `Ep04`). -/
def digitsEqSp (r : List Char) (e : Nat) : Bool :=
  match r with
  | ' ' :: rest => digitsEq rest e
  | _ => digitsEq r e

/-- Modelled from the spec: one position of the episode-token matcher of
`filter_files_by_episode` (section 4.4): exact episode-number tokens `- NN`,
`E NN`, `Ep NN`, `#NN`, with an optional `vN` version suffix ignored for
matching purposes.  `prev` is the character before this position, used as a
word boundary. -/
def epHere (e : Nat) (prev : Option Char) (l : List Char) : Bool :=
  (match l with
   | '-' :: ' ' :: r => digitsEq r e
   | _ => false)
  ||
  (boundaryO prev &&
   (match l with
    | '#' :: r => digitsEq r e
    | 'E' :: 'p' :: r => digitsEqSp r e
    | 'E' :: 'P' :: r => digitsEqSp r e
    | 'e' :: 'p' :: r => digitsEqSp r e
    | 'e' :: 'P' :: r => digitsEqSp r e
    | 'E' :: r => digitsEqSp r e
    | 'e' :: r => digitsEqSp r e
    | _ => false))

/-- Scans a file name for an episode token matching `e` at any position. -/
def scanEp (e : Nat) : Option Char → List Char → Bool
  | _, [] => false
  | prev, c :: rest => epHere e prev (c :: rest) || scanEp e (some c) rest

/-- Modelled from the spec: the whole-season/batch fallback of section 4.4 —
names containing `Complete` or `Batch` (case-insensitively) denote releases
covering the entire season. -/
def isBatchName (name : String) : Bool :=
  let lc := name.data.map toLowerC
  containsSub ('c' :: 'o' :: 'm' :: 'p' :: 'l' :: 'e' :: 't' :: 'e' :: []) lc ||
  containsSub ('b' :: 'a' :: 't' :: 'c' :: 'h' :: []) lc

/-- Modelled from the spec: `filter_files_by_episode(files, episode)` of
section 4.4 (the defining module `jimaku_dl/downloader.py` is not under
`src/`).  When `episode == 0` all files are returned unfiltered; otherwise the
files whose display name carries an exact episode token for `episode` are
returned in input order, and only when no such file exists does the filter
fall back to batch/complete releases. -/
def filter_files_by_episode (files : List SubtitleFile) (episode : Nat) :
    List SubtitleFile :=
  if episode == 0 then files
  else if (files.filter (fun f => scanEp episode none f.name.data)).isEmpty then
    files.filter (fun f => isBatchName f.name)
  else files.filter (fun f => scanEp episode none f.name.data)

/-! ### Filename/Path Parser (spec section 4.1) -/

/-- Drops the extension after the last dot of a file name (as Python's
`os.path.splitext`); a name with no dot is returned unchanged. -/
def stripExt (cs : List Char) : List Char :=
  match cs.reverse.dropWhile (fun c => !(c == '.')) with
  | [] => cs
  | _ :: rest => rest.reverse

/-- Removes square-bracketed release-tag groups (`[1080p]`, `[HEVC]`, …) from
a name; parenthesized groups are preserved.  The boolean state is true while
inside a bracket group. -/
def stripB : Bool → List Char → List Char
  | _, [] => []
  | false, c :: rest => if c == '[' then stripB true rest else c :: stripB false rest
  | true, c :: rest => if c == ']' then stripB false rest else stripB true rest

/-- After an `E` inside an `SxxEyy` marker: at least one digit must follow;
returns the season paired with the episode value read from the digit run. -/
def seD2 (s : Nat) : List Char → Option (Nat × Nat)
  | [] => none
  | c :: r => if isDigitC c then some (s, readNum (digitVal c) r) else none

/-- Inside the season digits of an `SxxEyy` marker: keeps consuming digits,
then expects `E` followed by episode digits. -/
def seD1go (acc : Nat) : List Char → Option (Nat × Nat)
  | [] => none
  | c :: r =>
    if isDigitC c then seD1go (acc * 10 + digitVal c) r
    else if c == 'E' || c == 'e' then seD2 acc r
    else none

/-- Directly after an `S`: requires at least one season digit, then `E` and
at least one episode digit. -/
def seD1 : List Char → Option (Nat × Nat)
  | [] => none
  | c :: r => if isDigitC c then seD1go (digitVal c) r else none

/-- Scans for an `SxxEyy` season/episode marker.  `acc` holds the characters
already passed, in reverse; on a match the characters before the marker are
returned (re-reversed) together with the season and episode numbers.  The `S`
must sit at a word boundary. -/
def goSE : List Char → List Char → Option (List Char × Nat × Nat)
  | _, [] => none
  | acc, c :: rest =>
    if (c == 'S' || c == 's') && boundaryO acc.head? then
      match seD1 rest with
      | some (s, e) => some (acc.reverse, s, e)
      | none => goSE (c :: acc) rest
    else goSE (c :: acc) rest

/-- Modelled from the spec: the bare `- NN` dash-number suffix rule of section
4.1 — a trailing digit run preceded by a dash separator is read as the episode
number (the edge-case policy of section 4.1: a bare trailing number counts as
an episode only when preceded by a dash; standalone numbers are left to the
title).  Returns the title part (before the dash) and the episode value. -/
def trailingDashNum (cs : List Char) : Option (List Char × Nat) :=
  match (cs.reverse.dropWhile (fun c => c == ' ')).takeWhile isDigitC with
  | [] => none
  | dsr =>
    match ((cs.reverse.dropWhile (fun c => c == ' ')).dropWhile isDigitC).dropWhile
        (fun c => c == ' ') with
    | '-' :: rest3 =>
        some ((rest3.dropWhile (fun c => c == ' ')).reverse, readNum 0 dsr.reverse)
    | _ => none

/-- Reads `NN` for an `Episode NN` / `Ep NN` / `E NN` / `#NN` token: a digit
run, directly adjacent. -/
def tokDigits : List Char → Option Nat
  | [] => none
  | c :: r => if isDigitC c then some (readNum (digitVal c) r) else none

/-- As `tokDigits`, allowing one separating space. -/
def tokDigitsSp : List Char → Option Nat
  | ' ' :: r => tokDigits r
  | r => tokDigits r

/-- Scans for an `Episode NN`, `Ep NN`, `E NN` or `#NN` episode token at a
word boundary; on a match returns the characters before the token (from the
reversed accumulator `acc`) and the episode value. -/
def goTok : List Char → List Char → Option (List Char × Nat)
  | _, [] => none
  | acc, c :: rest =>
    let here : Option Nat :=
      if boundaryO acc.head? then
        if c == '#' then tokDigits rest
        else if c == 'E' || c == 'e' then
          match rest with
          | 'p' :: 'i' :: 's' :: 'o' :: 'd' :: 'e' :: r2 => tokDigitsSp r2
          | 'p' :: r2 => tokDigitsSp r2
          | 'P' :: r2 => tokDigitsSp r2
          | r2 => tokDigitsSp r2
        else none
      else none
    match here with
    | some e => some (acc.reverse, e)
    | none => goTok (c :: acc) rest

/-- Drops trailing separator noise (spaces and dashes) left over once a
season/episode marker has been cut off the end of a title. -/
def trimEndSep (cs : List Char) : List Char :=
  (cs.reverse.dropWhile (fun c => c == ' ' || c == '-')).reverse

/-- Drops surrounding spaces. -/
def trimSpacesL (cs : List Char) : List Char :=
  ((cs.dropWhile (fun c => c == ' ')).reverse.dropWhile (fun c => c == ' ')).reverse

/-- Modelled from the spec: `parse_filename(name) -> (title, season, episode)`
of section 4.1 (the defining module `jimaku_dl/downloader.py` is not under
`src/`).  The extension is dropped, bracketed release-tag groups are stripped
while parenthesized year-like suffixes stay part of the title, and the
season/episode conventions are tried in the spec's order: `SxxEyy`, the bare
`- NN` dash-number suffix, then `Episode NN` / `Ep NN` / `E NN` / `#NN`
tokens.  When no episode marker is found the episode defaults to 0; when no
season marker is found the season defaults to 1.  `parseCleaned` is the
marker-priority cascade applied to the cleaned name. -/
def parseCleaned (cleaned : List Char) : String × Nat × Nat :=
  match goSE [] cleaned with
  | some (before, s, e) => (String.mk (trimEndSep before), s, e)
  | none =>
    match trailingDashNum cleaned with
    | some (t, e) => (String.mk t, 1, e)
    | none =>
      match goTok [] cleaned with
      | some (before, e) => (String.mk (trimEndSep before), 1, e)
      | none => (String.mk (trimSpacesL cleaned), 1, 0)

/-- The entry point of the parser of section 4.1: clean the name, then run the
marker cascade (see `parseCleaned`). -/
def parse_filename (filename : String) : String × Nat × Nat :=
  parseCleaned (stripB false (stripExt filename.data))

/-- Result of `parse_directory_name`: a success flag distinguishing a show
title from a generic container folder, plus the parsed title, season and
episode (spec section 4.1). -/
structure DirParse where
  success : Bool
  title : String
  season : Nat
  episode : Nat
deriving DecidableEq

/-- Walks the ancestor levels of a path, leaf-first.  The argument list is the
component list reversed (leaf component first); at each level the full current
path — the components up to and including that level, in root-first order — is
handed to `pdn` (`parse_directory_name`).  Returns the first level that parses
successfully. -/
def walkUp (pdn : List String → DirParse) : List String → Option (String × Nat × Nat)
  | [] => none
  | c :: rest =>
    let r := pdn ((c :: rest).reverse)
    if r.success then some (r.title, r.season, r.episode)
    else walkUp pdn rest

/-- Modelled from the spec: `find_anime_title_in_path(path)` of section 4.1
(the defining module `jimaku_dl/downloader.py` is not under `src/`).  A path
is its component list in root-first order; `pdn` stands for
`parse_directory_name` applied to an ancestor path and `pf` for
`parse_filename` applied to the leaf name.  The walk starts at the given path
and moves upward through parent directories, returning the result of the
first (closest-to-leaf) level whose directory name parses successfully; if no
level succeeds, the leaf name itself is parsed with `parse_filename`. -/
def find_anime_title_in_path (pdn : List String → DirParse)
    (pf : String → String × Nat × Nat) (components : List String) :
    String × Nat × Nat :=
  match walkUp pdn components.reverse with
  | some r => r
  | none => pf (components.getLastD "")

/-! ### Metadata Resolver (spec section 4.2) -/

/-- Errors of the Metadata Resolver (spec sections 4.2 and 7). -/
inductive ResolveError where
  | noMatchError
  | resolutionError (msg : String)
deriving DecidableEq

/-- Outcome of `resolve_media` on a title search: either a single candidate
resolved automatically, or the full candidate list handed to the Selector. -/
inductive ResolveResult where
  | auto (m : CanonicalMedia)
  | choices (ms : List CanonicalMedia)
deriving DecidableEq

/-- Modelled from the spec: the title-search arm of
`resolve_media(title) -> CanonicalMedia | list[CanonicalMedia]` of section 4.2
(the defining module `jimaku_dl/downloader.py` is not under `src/`).  The
metadata service's reply — up to N candidates in its own relevance order — is
the `searchResults` argument.  Exactly one candidate resolves automatically;
zero candidates fail with `NoMatchError`; several candidates are returned as
the full list, untouched and in service order, for the Selector. -/
def resolve_media (searchResults : List CanonicalMedia) :
    Except ResolveError ResolveResult :=
  match searchResults with
  | [] => .error .noMatchError
  | [m] => .ok (.auto m)
  | ms => .ok (.choices ms)

/-- Modelled from the spec: the resolver-to-selector step of the pipeline
(sections 4.2 and 4.5).  `fzf` is the external fuzzy selector; the boolean in
the result records whether it was invoked.  An automatic resolution bypasses
the selector; a `none` selection on several candidates fails rather than
picking a default. -/
def resolve_and_select (searchResults : List CanonicalMedia)
    (fzf : List CanonicalMedia → Option CanonicalMedia) :
    Except ResolveError (CanonicalMedia × Bool) :=
  match resolve_media searchResults with
  | .error e => .error e
  | .ok (.auto m) => .ok (m, false)
  | .ok (.choices ms) =>
    match fzf ms with
    | some m => .ok (m, true)
    | none => .error (.resolutionError "no selection")

/-! ### Disambiguation Selector (spec section 4.5) -/

/-- Errors of the selection step (spec section 7). -/
inductive SelectError where
  | noSelectionError
deriving DecidableEq

/-- Modelled from the spec: the auto-select short-circuit of section 4.5 — a
single candidate is chosen without invoking the external selector; otherwise
`fzf_menu` (the `fzf` argument) is consulted.  The boolean records whether the
selector was invoked. -/
def select_candidate {α : Type} (candidates : List α)
    (fzf : List α → Option α) : Option α × Bool :=
  match candidates with
  | [x] => (some x, false)
  | xs => (fzf xs, true)

/-- Modelled from the spec: the caller's obligation of section 4.5 — a `None`
selection (user abort or selector unavailable) fails the operation with
`NoSelectionError` rather than guessing a default. -/
def select_or_fail {α : Type} (candidates : List α)
    (fzf : List α → Option α) : Except SelectError α × Bool :=
  match select_candidate candidates fzf with
  | (some x, b) => (.ok x, b)
  | (none, b) => (.error .noSelectionError, b)

/-! ### Subtitle Index Client (spec sections 4.3, 6 and 7) -/

/-- An HTTP reply from the subtitle index, reduced to the status code and the
body the error handling inspects. -/
structure HttpResponse where
  status : Nat
  body : String
deriving DecidableEq

/-- Errors of the Subtitle Index Client (spec sections 4.3 and 7): the
distinguished authentication failure and the generic network/API failure,
both carrying the upstream status and message. -/
inductive JimakuError where
  | authError (status : Nat) (message : String)
  | apiError (status : Nat) (message : String)
deriving DecidableEq

/-- Modelled from the spec: the response handling of `search_entries` in the
Subtitle Index Client (sections 4.3, 6 and 7; the defining module
`jimaku_dl/downloader.py` is not under `src/`).  Unauthorized requests (the
index replies 401) become the distinguished `authError` carrying the upstream
status and message; other error statuses and malformed bodies become
`apiError`; only a well-formed success body yields entries.  `parseBody`
stands for the JSON decoding of the reply. -/
def search_entries_response (resp : HttpResponse)
    (parseBody : String → Option (List SubtitleEntry)) :
    Except JimakuError (List SubtitleEntry) :=
  if resp.status == 401 then .error (.authError resp.status resp.body)
  else if 400 ≤ resp.status then .error (.apiError resp.status resp.body)
  else
    match parseBody resp.body with
    | some entries => .ok entries
    | none => .error (.apiError resp.status resp.body)

/-! ### Subtitle synchronization fallback -/

/-- Outcome of launching the external `ffsubsync` process: it completed with a
return code and stderr text, or the binary was not found. -/
inductive SubprocessResult where
  | completed (returncode : Int) (stderr : String)
  | notFound
deriving DecidableEq

/-- Modelled from the spec: the failure handling of
`JimakuDownloader.sync_subtitles` (the defining module
`jimaku_dl/downloader.py` is not under `src/`; its contract is documented by
`tests/test_downloader_extended.py`, `TestSubtitleSynchronization`, and by the
error-handling design of section 7 — failures are locally recoverable, never
a crash).  A successful `ffsubsync` run yields the synchronized output path;
a nonzero return code or a missing `ffsubsync` binary yields the original
subtitle path so the caller still has a usable file. -/
def sync_subtitles (subtitle_path output_path : String)
    (run : SubprocessResult) : String :=
  match run with
  | .completed rc _ => if rc == 0 then output_path else subtitle_path
  | .notFound => subtitle_path

/-! ### Concrete fixtures used by claim theorems and witnesses -/

/-- The file list of the filter test
(`test_filter_files_by_episode_special_patterns`): one file per naming
convention plus a complete and a batch release. -/
def specialPatternFiles : List SubtitleFile :=
  [⟨1, "Show - 01.srt", ""⟩, ⟨2, "Show - Episode 02.srt", ""⟩,
   ⟨3, "Show - E03.srt", ""⟩, ⟨4, "Show - Ep 04.srt", ""⟩,
   ⟨5, "Show #05.srt", ""⟩, ⟨6, "Show - 06v2.srt", ""⟩,
   ⟨7, "Show (Complete).srt", ""⟩, ⟨8, "Show - Batch.srt", ""⟩]

/-- A directory-name oracle for the `find_anime_title_in_path` scenario: of
the levels of `Anime/Winter 2023/Show Name/Season 1`, only `Show Name` parses
as a show title. -/
def scenarioPdn : List String → DirParse := fun l =>
  if l = ["Anime", "Winter 2023", "Show Name"] then ⟨true, "Show Name", 1, 0⟩
  else ⟨false, "", 0, 0⟩

/-- A leaf fallback standing for `parse_filename` on a directory leaf. -/
def leafPf : String → String × Nat × Nat := fun s => (s, 1, 0)

/-! ### Helper lemmas -/

/-- Dropping while a predicate holds skips a fully satisfying block. -/
theorem dropWhile_append_all (p : Char → Bool) (a b : List Char)
    (h : ∀ c ∈ a, p c = true) : (a ++ b).dropWhile p = b.dropWhile p := by
  induction a with
  | nil => rfl
  | cons x xs ih =>
    rw [List.cons_append, List.dropWhile_cons_of_pos (h x (List.mem_cons_self x xs))]
    exact ih fun c hc => h c (List.mem_cons_of_mem x hc)

/-- Taking while a predicate holds crosses a fully satisfying block. -/
theorem takeWhile_append_all (p : Char → Bool) (a b : List Char)
    (h : ∀ c ∈ a, p c = true) : (a ++ b).takeWhile p = a ++ b.takeWhile p := by
  induction a with
  | nil => rfl
  | cons x xs ih =>
    rw [List.cons_append, List.takeWhile_cons_of_pos (h x (List.mem_cons_self x xs)),
      ih fun c hc => h c (List.mem_cons_of_mem x hc), List.cons_append]

/-- A digit character is not a space. -/
theorem digit_ne_space (c : Char) (h : isDigitC c = true) : (c == ' ') = false := by
  cases hb : c == ' ' with
  | false => rfl
  | true => rw [eq_of_beq hb] at h; exact absurd h (by decide)

/-- A digit character is not an opening bracket. -/
theorem digit_ne_lbracket (c : Char) (h : isDigitC c = true) :
    (c == '[') = false := by
  cases hb : c == '[' with
  | false => rfl
  | true => rw [eq_of_beq hb] at h; exact absurd h (by decide)

/-- A digit character is neither `S` nor `s`. -/
theorem digit_ne_S (c : Char) (h : isDigitC c = true) :
    ((c == 'S') || (c == 's')) = false := by
  cases h1 : c == 'S' with
  | true => rw [eq_of_beq h1] at h; exact absurd h (by decide)
  | false =>
    cases h2 : c == 's' with
    | true => rw [eq_of_beq h2] at h; exact absurd h (by decide)
    | false => rfl

/-- Splitting the extension off at the last dot recovers the base name when
the extension itself has no dot. -/
theorem stripExt_append (xs ext : List Char)
    (hext : ∀ c ∈ ext, (c == '.') = false) :
    stripExt (xs ++ '.' :: ext) = xs := by
  have e1 : (xs ++ '.' :: ext).reverse = ext.reverse ++ '.' :: xs.reverse := by
    simp
  have e2 : (xs ++ '.' :: ext).reverse.dropWhile (fun c => !(c == '.'))
      = '.' :: xs.reverse := by
    rw [e1, dropWhile_append_all _ _ _ ?hall]
    · exact List.dropWhile_cons_of_neg (by decide)
    case hall =>
      intro c hc
      rw [List.mem_reverse] at hc
      simp [hext c hc]
  unfold stripExt
  rw [e2]
  simp

/-- Removing bracket groups leaves a bracket-free block untouched. -/
theorem stripB_append (a b : List Char) (h : ∀ c ∈ a, (c == '[') = false) :
    stripB false (a ++ b) = a ++ stripB false b := by
  induction a with
  | nil => rfl
  | cons x xs ih =>
    have hx := h x (List.mem_cons_self x xs)
    rw [List.cons_append]
    simp only [stripB, hx, Bool.false_eq_true, if_false, List.cons_append,
      List.cons.injEq, true_and]
    exact ih fun c hc => h c (List.mem_cons_of_mem x hc)

/-- Appending a space-led tail cannot create the episode digits of an
`SxxEyy` marker that was absent. -/
theorem seD2_append (s : Nat) (z : List Char) :
    ∀ r, seD2 s r = none → seD2 s (r ++ ' ' :: z) = none := by
  intro r h
  cases r with
  | nil =>
    have hd : isDigitC ' ' = false := by decide
    simp [seD2, hd]
  | cons c r2 =>
    cases hd : isDigitC c with
    | true => rw [seD2, if_pos hd] at h; cases h
    | false =>
      rw [List.cons_append]
      rw [seD2, if_neg (by simp [hd])]

/-- Appending a space-led tail cannot complete the `E`-and-digits part of an
`SxxEyy` marker that was absent. -/
theorem seD1go_append (z : List Char) :
    ∀ r acc, seD1go acc r = none → seD1go acc (r ++ ' ' :: z) = none := by
  intro r
  induction r with
  | nil =>
    intro acc h
    have hd : isDigitC ' ' = false := by decide
    have he : ((' ' == 'E') || (' ' == 'e')) = false := by decide
    simp [seD1go, hd, he]
  | cons c r2 ih =>
    intro acc h
    rw [List.cons_append]
    cases hd : isDigitC c with
    | true =>
      rw [seD1go, if_pos hd] at h ⊢
      exact ih _ h
    | false =>
      cases he : ((c == 'E') || (c == 'e')) with
      | true =>
        rw [seD1go, if_neg (by simp [hd]), if_pos he] at h ⊢
        exact seD2_append _ _ _ h
      | false =>
        rw [seD1go, if_neg (by simp [hd]), if_neg (by simp [he])]

/-- Appending a space-led tail cannot complete an `SxxEyy` marker body that
was absent. -/
theorem seD1_append (z : List Char) :
    ∀ r, seD1 r = none → seD1 (r ++ ' ' :: z) = none := by
  intro r h
  cases r with
  | nil =>
    have hd : isDigitC ' ' = false := by decide
    simp [seD1, hd]
  | cons c r2 =>
    rw [List.cons_append]
    cases hd : isDigitC c with
    | true =>
      rw [seD1, if_pos hd] at h ⊢
      exact seD1go_append _ _ _ h
    | false => rw [seD1, if_neg (by simp [hd])]

/-- A block without `S` or `s` holds no `SxxEyy` marker. -/
theorem goSE_none_of_noS :
    ∀ (l acc : List Char), (∀ c ∈ l, ((c == 'S') || (c == 's')) = false) →
      goSE acc l = none := by
  intro l
  induction l with
  | nil => intro acc _; rfl
  | cons c rest ih =>
    intro acc h
    have hc := h c (List.mem_cons_self c rest)
    rw [goSE, if_neg (by simp [hc])]
    exact ih _ fun x hx => h x (List.mem_cons_of_mem c hx)

/-- Appending a space-led, `S`-free tail to a block without an `SxxEyy`
marker still yields no marker: a marker is a contiguous alphanumeric run, so
it can neither cross the space seam nor live in the tail. -/
theorem goSE_append_sp (z : List Char)
    (hz : ∀ c ∈ (' ' :: z : List Char), ((c == 'S') || (c == 's')) = false) :
    ∀ (t acc : List Char), goSE acc t = none → goSE acc (t ++ ' ' :: z) = none := by
  intro t
  induction t with
  | nil => intro acc _; exact goSE_none_of_noS (' ' :: z) acc hz
  | cons c r ih =>
    intro acc h
    rw [List.cons_append]
    cases hcond : (c == 'S' || c == 's') && boundaryO acc.head? with
    | false =>
      simp only [goSE, hcond, Bool.false_eq_true, if_false] at h ⊢
      exact ih _ h
    | true =>
      simp only [goSE, hcond, if_true] at h ⊢
      cases hse : seD1 r with
      | some p =>
        obtain ⟨s, e⟩ := p
        rw [hse] at h
        exact Option.noConfusion h
      | none =>
        rw [hse] at h
        rw [seD1_append z r hse]
        exact ih (c :: acc) h

/-- The dash-number suffix rule on a name of the shape
`title ++ " - " ++ digits ++ spaces`: it finds the digits as the episode and
returns the title unchanged (no trailing spaces on the title). -/
theorem trailingDashNum_spec (title ds sp : List Char)
    (hds1 : ds ≠ []) (hds2 : ∀ c ∈ ds, isDigitC c = true)
    (hsp : ∀ c ∈ sp, c = ' ')
    (htsp : title.reverse.dropWhile (fun c => c == ' ') = title.reverse) :
    trailingDashNum (title ++ ' ' :: '-' :: ' ' :: (ds ++ sp))
      = some (title, readNum 0 ds) := by
  cases hrev : ds.reverse with
  | nil => exact absurd (List.reverse_eq_nil_iff.mp hrev) hds1
  | cons d0 dtl =>
    have hmem : ∀ c ∈ d0 :: dtl, isDigitC c = true := by
      intro c hc
      rw [← hrev, List.mem_reverse] at hc
      exact hds2 c hc
    have hd0 : isDigitC d0 = true := hmem d0 (List.mem_cons_self d0 dtl)
    have e1 : (title ++ ' ' :: '-' :: ' ' :: (ds ++ sp)).reverse
        = sp.reverse ++ (d0 :: dtl) ++ ' ' :: '-' :: ' ' :: title.reverse := by
      rw [← hrev]
      simp
    have hspr : ∀ c ∈ sp.reverse, (c == ' ') = true := by
      intro c hc
      rw [List.mem_reverse] at hc
      rw [hsp c hc]
      decide
    have eA : (title ++ ' ' :: '-' :: ' ' :: (ds ++ sp)).reverse.dropWhile
        (fun c => c == ' ')
        = d0 :: (dtl ++ ' ' :: '-' :: ' ' :: title.reverse) := by
      rw [e1, List.append_assoc, dropWhile_append_all _ _ _ hspr,
        List.cons_append,
        List.dropWhile_cons_of_neg (by simp [digit_ne_space d0 hd0])]
    have eB : (d0 :: (dtl ++ ' ' :: '-' :: ' ' :: title.reverse)).takeWhile isDigitC
        = d0 :: dtl := by
      rw [List.takeWhile_cons_of_pos hd0,
        takeWhile_append_all _ _ _
          (fun c hc => hmem c (List.mem_cons_of_mem d0 hc)),
        List.takeWhile_cons_of_neg (by decide)]
      simp
    have eC : ((d0 :: (dtl ++ ' ' :: '-' :: ' ' :: title.reverse)).dropWhile
          isDigitC).dropWhile (fun c => c == ' ')
        = '-' :: (' ' :: title.reverse) := by
      rw [List.dropWhile_cons_of_pos hd0,
        dropWhile_append_all _ _ _
          (fun c hc => hmem c (List.mem_cons_of_mem d0 hc)),
        List.dropWhile_cons_of_neg (by decide),
        List.dropWhile_cons_of_pos (by decide),
        List.dropWhile_cons_of_neg (by decide)]
    have eD : ((' ' :: title.reverse).dropWhile (fun c => c == ' ')).reverse
        = title := by
      rw [List.dropWhile_cons_of_pos (by decide), htsp, List.reverse_reverse]
    have eE : readNum 0 (d0 :: dtl).reverse = readNum 0 ds := by
      rw [← hrev, List.reverse_reverse]
    unfold trailingDashNum
    rw [eA, eB, eC]
    show some ((List.dropWhile (fun c => c == ' ') (' ' :: title.reverse)).reverse,
      readNum 0 (d0 :: dtl).reverse) = some (title, readNum 0 ds)
    rw [eD, eE]

/-- If every level fails to parse, the upward walk finds nothing. -/
theorem walkUp_eq_none_of_all_fail (pdn : List String → DirParse)
    (h : ∀ l, (pdn l).success = false) :
    ∀ r, walkUp pdn r = none := by
  intro r
  induction r with
  | nil => rfl
  | cons c rest ih => simp [walkUp, h, ih]

/-! ### Claim theorems -/

/-- Claim C1: on the file list named `{01, Episode 02, E03, Ep 04, #05, 06v2,
(Complete), Batch}`, `filter_files_by_episode` requesting episode 3 returns
exactly the one `E03` file, and requesting episode 10 (no per-episode match)
returns exactly the two batch/complete files, in input order. -/
theorem c1_filter_special_patterns :
    filter_files_by_episode specialPatternFiles 3
      = [⟨3, "Show - E03.srt", ""⟩]
    ∧ filter_files_by_episode specialPatternFiles 10
      = [⟨7, "Show (Complete).srt", ""⟩, ⟨8, "Show - Batch.srt", ""⟩] := by
  decide

/-- Claim C2: a metadata search with exactly one candidate resolves
automatically and the Selector is never invoked (the invocation flag stays
`false`); zero candidates fail with `NoMatchError`; more than one candidate
yields the full candidate list unmodified, in service-provided order. -/
theorem c2_resolver_candidate_cardinality (cs : List CanonicalMedia)
    (fzf : List CanonicalMedia → Option CanonicalMedia) :
    (cs = [] → resolve_media cs = .error .noMatchError)
    ∧ (∀ m, cs = [m] → resolve_and_select cs fzf = .ok (m, false))
    ∧ (2 ≤ cs.length → resolve_media cs = .ok (.choices cs)) := by
  refine ⟨?_, ?_, ?_⟩
  · rintro rfl; rfl
  · rintro m rfl; rfl
  · intro h
    match cs, h with
    | a :: b :: t, _ => rfl

/-- Claim C2 witness: the three cases at concrete candidate lists. -/
theorem c2_resolver_candidate_cardinality_witness :
    resolve_media ([] : List CanonicalMedia) = .error .noMatchError
    ∧ resolve_and_select [⟨1234, "Test Anime", "Test Anime Show", "Tesuto", "TV", 12⟩]
        (fun _ => none)
      = .ok (⟨1234, "Test Anime", "Test Anime Show", "Tesuto", "TV", 12⟩, false)
    ∧ resolve_media
        [⟨1234, "Test Anime", "Test Anime Show", "Tesuto", "TV", 12⟩,
         ⟨5678, "Another", "Another Test", "Betsu", "TV", 24⟩]
      = .ok (.choices
        [⟨1234, "Test Anime", "Test Anime Show", "Tesuto", "TV", 12⟩,
         ⟨5678, "Another", "Another Test", "Betsu", "TV", 24⟩]) :=
  ⟨(c2_resolver_candidate_cardinality [] (fun _ => none)).1 rfl,
   (c2_resolver_candidate_cardinality _ (fun _ => none)).2.1 _ rfl,
   (c2_resolver_candidate_cardinality _ (fun _ => none)).2.2 (by decide)⟩

/-- Claim C3: `find_anime_title_in_path` walks upward from the leaf calling
`parse_directory_name` at each level and returns the first (closest-to-leaf)
success: on the levels `Season 1` (fail) / `Show Name` (success, giving
`("Show Name", 1, 0)`) / `Winter 2023` / `Anime` it returns
`("Show Name", 1, 0)`; and when no level succeeds it falls back to parsing
the leaf name. -/
theorem c3_find_title_walks_upward (pdn : List String → DirParse)
    (pf : String → String × Nat × Nat)
    (h1 : (pdn ["Anime", "Winter 2023", "Show Name", "Season 1"]).success = false)
    (h2 : pdn ["Anime", "Winter 2023", "Show Name"] = ⟨true, "Show Name", 1, 0⟩) :
    find_anime_title_in_path pdn pf ["Anime", "Winter 2023", "Show Name", "Season 1"]
      = ("Show Name", 1, 0)
    ∧ (∀ (pdn2 : List String → DirParse) (pf2 : String → String × Nat × Nat)
         (cs : List String), (∀ l, (pdn2 l).success = false) →
         find_anime_title_in_path pdn2 pf2 cs = pf2 (cs.getLastD "")) := by
  constructor
  · simp [find_anime_title_in_path, walkUp, h1, h2]
  · intro pdn2 pf2 cs hall
    unfold find_anime_title_in_path
    rw [walkUp_eq_none_of_all_fail pdn2 hall]

/-- Claim C3 witness: the scenario at a concrete directory-name oracle. -/
theorem c3_find_title_walks_upward_witness :
    find_anime_title_in_path scenarioPdn leafPf
      ["Anime", "Winter 2023", "Show Name", "Season 1"] = ("Show Name", 1, 0) :=
  (c3_find_title_walks_upward scenarioPdn leafPf (by decide) (by decide)).1

/-- Claim C4: `parse_filename` on `Show Name (2023) - S01E05 [1080p][HEVC].mkv`
strips the bracketed release tags, keeps the parenthesized year as part of the
title, and reads the `SxxEyy` marker as season 1, episode 5. -/
theorem c4_parse_filename_special_characters :
    parse_filename "Show Name (2023) - S01E05 [1080p][HEVC].mkv"
      = ("Show Name (2023)", 1, 5) := by
  decide

/-- Claim C5: for every filename of the shape `<Title> - <NN><noise>.<ext>` —
`NN` a digit run, the noise reducing to spaces once its bracketed groups are
stripped, the extension dot-free, and the title free of brackets, of an
`SxxEyy` marker and of trailing spaces — `parse_filename` returns
`(Title, 1, NN)`: the dash-number suffix is the episode and the season
defaults to 1. -/
theorem c5_dash_number_suffix (title ds noise ext : List Char)
    (hds1 : ds ≠ []) (hds2 : ∀ c ∈ ds, isDigitC c = true)
    (hnoise : ∀ c ∈ stripB false noise, c = ' ')
    (hext : ∀ c ∈ ext, (c == '.') = false)
    (htbr : ∀ c ∈ title, (c == '[') = false)
    (htse : goSE [] title = none)
    (htsp : title.reverse.dropWhile (fun c => c == ' ') = title.reverse) :
    parse_filename
        (String.mk ((title ++ ' ' :: '-' :: ' ' :: (ds ++ noise)) ++ '.' :: ext))
      = (String.mk title, 1, readNum 0 ds) := by
  show parseCleaned (stripB false (stripExt
    ((title ++ ' ' :: '-' :: ' ' :: (ds ++ noise)) ++ '.' :: ext)))
    = (String.mk title, 1, readNum 0 ds)
  rw [stripExt_append _ _ hext]
  have hshape : title ++ ' ' :: '-' :: ' ' :: (ds ++ noise)
      = (title ++ ' ' :: '-' :: ' ' :: ds) ++ noise := by
    simp
  have hclean : ∀ c ∈ title ++ ' ' :: '-' :: ' ' :: ds, (c == '[') = false := by
    intro c hc
    rcases List.mem_append.mp hc with ht | hr
    · exact htbr c ht
    rcases List.mem_cons.mp hr with rfl | h1
    · decide
    rcases List.mem_cons.mp h1 with rfl | h2
    · decide
    rcases List.mem_cons.mp h2 with rfl | h3
    · decide
    · exact digit_ne_lbracket c (hds2 c h3)
  have hshape2 : (title ++ ' ' :: '-' :: ' ' :: ds) ++ stripB false noise
      = title ++ ' ' :: '-' :: ' ' :: (ds ++ stripB false noise) := by
    simp
  rw [hshape, stripB_append _ _ hclean, hshape2]
  have hz : ∀ c ∈ (' ' :: ('-' :: ' ' :: (ds ++ stripB false noise)) : List Char),
      ((c == 'S') || (c == 's')) = false := by
    intro c hc
    rcases List.mem_cons.mp hc with rfl | hc1
    · decide
    rcases List.mem_cons.mp hc1 with rfl | hc2
    · decide
    rcases List.mem_cons.mp hc2 with rfl | hc3
    · decide
    rcases List.mem_append.mp hc3 with hd | hs
    · exact digit_ne_S c (hds2 c hd)
    · rw [hnoise c hs]; decide
  have e3 : goSE [] (title ++ ' ' :: '-' :: ' ' :: (ds ++ stripB false noise))
      = none :=
    goSE_append_sp _ hz title [] htse
  unfold parseCleaned
  rw [e3, trailingDashNum_spec title ds (stripB false noise) hds1 hds2 hnoise htsp]

/-- Claim C5 witness: `My Show - 07 [720p].mkv` parses to `(My Show, 1, 7)`. -/
theorem c5_dash_number_suffix_witness :
    parse_filename (String.mk (("My Show".data ++ ' ' :: '-' :: ' ' ::
        (('0' :: '7' :: []) ++ " [720p]".data)) ++ '.' :: "mkv".data))
      = (String.mk "My Show".data, 1, readNum 0 ('0' :: '7' :: [])) :=
  c5_dash_number_suffix "My Show".data ('0' :: '7' :: []) " [720p]".data
    "mkv".data (by decide) (by decide) (by decide) (by decide) (by decide)
    (by decide) (by decide)

/-- Claim C6: when more than one candidate exists and the selector returns
`none` (user abort or selector unavailable), the pipeline fails with
`NoSelectionError` instead of picking a default; a single candidate is
auto-selected without invoking the selector at all. -/
theorem c6_none_selection_fails (α : Type) (cs : List α)
    (fzf : List α → Option α) :
    (∀ x, cs = [x] → select_or_fail cs fzf = (.ok x, false))
    ∧ (2 ≤ cs.length → fzf cs = none →
        select_or_fail cs fzf = (.error .noSelectionError, true)) := by
  constructor
  · rintro x rfl; rfl
  · intro hlen hnone
    match cs, hlen with
    | a :: b :: t, _ => simp [select_or_fail, select_candidate, hnone]

/-- Claim C6 witness: both cases at concrete candidate lists of entry ids. -/
theorem c6_none_selection_fails_witness :
    select_or_fail [100] (fun _ => (none : Option Nat)) = (.ok 100, false)
    ∧ select_or_fail [100, 101] (fun _ => (none : Option Nat))
      = (.error .noSelectionError, true) :=
  ⟨(c6_none_selection_fails Nat [100] (fun _ => none)).1 100 rfl,
   (c6_none_selection_fails Nat [100, 101] (fun _ => none)).2 (by decide) rfl⟩

/-- Claim C7: when the subtitle index rejects the token with HTTP 401, the
client yields the distinguished authentication error carrying the upstream
status and message — never an empty (or any) success result. -/
theorem c7_unauthorized_is_auth_error (resp : HttpResponse)
    (parseBody : String → Option (List SubtitleEntry))
    (h : resp.status = 401) :
    search_entries_response resp parseBody = .error (.authError 401 resp.body)
    ∧ ∀ es, search_entries_response resp parseBody ≠ .ok es := by
  have h1 : search_entries_response resp parseBody
      = .error (.authError 401 resp.body) := by
    simp [search_entries_response, h]
  exact ⟨h1, fun es hc => by rw [h1] at hc; cases hc⟩

/-- Claim C7 witness: the 401 reply of the mocked-download test. -/
theorem c7_unauthorized_is_auth_error_witness :
    search_entries_response ⟨401, "Unauthorized"⟩ (fun _ => none)
      = .error (.authError 401 "Unauthorized") :=
  (c7_unauthorized_is_auth_error ⟨401, "Unauthorized"⟩ (fun _ => none) rfl).1

/-- Claim C8: requesting episode 0 (directory-wide / unknown target) returns
the entire input list unfiltered, in its original order. -/
theorem c8_filter_episode_zero_returns_all (files : List SubtitleFile) :
    filter_files_by_episode files 0 = files := rfl

/-- Claim C9: `filter_files_by_episode` is deterministic over its inputs, its
result is a sublist of the input (so index order is preserved), and every
input file whose name matches the requested episode appears in the result. -/
theorem c9_filter_deterministic_order_preserving (files : List SubtitleFile)
    (e : Nat) :
    filter_files_by_episode files e = filter_files_by_episode files e
    ∧ List.Sublist (filter_files_by_episode files e) files
    ∧ (∀ f, f ∈ files → scanEp e none f.name.data = true →
        f ∈ filter_files_by_episode files e) := by
  refine ⟨rfl, ?_, ?_⟩
  · unfold filter_files_by_episode
    split
    · exact List.Sublist.refl files
    · split
      · exact List.filter_sublist files
      · exact List.filter_sublist files
  · intro f hf hm
    unfold filter_files_by_episode
    split
    · exact hf
    · have hd : f ∈ files.filter (fun g => scanEp e none g.name.data) :=
        List.mem_filter.mpr ⟨hf, hm⟩
      split
      · rename_i hemp
        rw [List.isEmpty_iff] at hemp
        rw [hemp] at hd
        cases hd
      · exact hd

/-- Claim C9 witness: the matching `E03` file is kept at episode 3 on the
special-pattern fixture. -/
theorem c9_filter_deterministic_order_preserving_witness :
    (⟨3, "Show - E03.srt", ""⟩ : SubtitleFile)
      ∈ filter_files_by_episode specialPatternFiles 3 :=
  (c9_filter_deterministic_order_preserving specialPatternFiles 3).2.2
    ⟨3, "Show - E03.srt", ""⟩ (by decide) (by decide)

/-- Claim C10: when `ffsubsync` exits nonzero or its binary is missing,
`sync_subtitles` returns the original (unsynchronized) subtitle path instead
of raising, so the caller still has a usable subtitle file. -/
theorem c10_sync_failure_returns_original (sub out err : String) (rc : Int)
    (h : rc ≠ 0) :
    sync_subtitles sub out (.completed rc err) = sub
    ∧ sync_subtitles sub out .notFound = sub := by
  constructor
  · simp [sync_subtitles, h]
  · rfl

/-- Claim C10 witness: the failing return code and the missing binary of the
synchronization tests both fall back to the original path. -/
theorem c10_sync_failure_returns_original_witness :
    sync_subtitles "/path/to/subtitle.srt" "/path/to/output.srt"
      (.completed 1 "ffsubsync error output") = "/path/to/subtitle.srt"
    ∧ sync_subtitles "/path/to/subtitle.srt" "/path/to/output.srt"
      .notFound = "/path/to/subtitle.srt" :=
  c10_sync_failure_returns_original "/path/to/subtitle.srt"
    "/path/to/output.srt" "ffsubsync error output" 1 (by decide)

end JimakuDl
